import Mathlib

/-!
# Verification of `tools/import-svg-to-ufo.py`

A shallow embedding of the SVG-to-UFO glyph conversion script of the
Gayathri font repository, together with theorems settling the claims of
its specification.

Modelling conventions:
* Python numeric values are embedded as `PyVal`: either a Python `int`
  (`Int`) or a Python `float`.  Every float value the script ever builds
  comes from parsing a decimal literal or from adding such values, so
  floats are represented exactly as fixed-point decimals `num / 10 ^ exp`
  (`Dec`), which the kernel can evaluate; `Dec.toQ` gives the rational
  value for stating arithmetic facts.
* Fallible Python operations (`float(...)`, `int(...)`, dictionary and
  list indexing, XML parsing) return `Option` / `Except PyError`.
* The filesystem effects of `main` are made explicit: the run returns a
  `RunOutcome` listing every file write it performs, next to the final
  contents of the glyph registry (`glyphs/contents.plist`) and of the
  `public.glyphOrder` list.
-/

/-- Exact decimal number `num / 10 ^ exp`; the embedding of the Python
float values occurring in the script (all of which arise from decimal
literals and addition). -/
structure Dec where
  num : Int
  exp : Nat
  deriving DecidableEq, Repr

/-- The rational value of a fixed-point decimal. -/
def Dec.toQ (d : Dec) : ℚ := (d.num : ℚ) / (10 : ℚ) ^ d.exp

/-- Addition of fixed-point decimals: align the decimal points, add the
mantissas (how Python float addition acts on the exactly representable
values used here). -/
def Dec.add (a b : Dec) : Dec :=
  let m := max a.exp b.exp
  ⟨a.num * (10 : Int) ^ (m - a.exp) + b.num * (10 : Int) ^ (m - b.exp), m⟩

/-- A Python numeric value: `int` or `float`. -/
inductive PyVal where
  | int (n : Int)
  | float (d : Dec)
  deriving DecidableEq, Repr

/-- Whether a Python value is a float. -/
def PyVal.isFloat : PyVal → Bool
  | .int _ => false
  | .float _ => true

/-- View of a Python numeric value as a fixed-point decimal. -/
def PyVal.toDec : PyVal → Dec
  | .int n => ⟨n, 0⟩
  | .float d => d

/-- The rational value of a Python numeric value. -/
def PyVal.toQ (v : PyVal) : ℚ := v.toDec.toQ

/-- Python `+` on numbers: `int + int` is an `int`; as soon as a float is
involved the result is a float. -/
def pyAdd : PyVal → PyVal → PyVal
  | .int a, .int b => .int (a + b)
  | a, b => .float (a.toDec.add b.toDec)

theorem Dec.toQ_add (a b : Dec) : (a.add b).toQ = a.toQ + b.toQ := by
  unfold Dec.add Dec.toQ
  rcases Nat.le_total a.exp b.exp with h | h
  · have hm : max a.exp b.exp = b.exp := Nat.max_eq_right h
    simp only [hm]
    have hb : b.exp - b.exp = 0 := Nat.sub_self b.exp
    rw [hb]
    push_cast
    rw [div_add_div _ _ (by positivity) (by positivity)]
    rw [div_eq_div_iff (by positivity) (by positivity)]
    have hsplit : (10 : ℚ) ^ b.exp = 10 ^ (b.exp - a.exp) * 10 ^ a.exp := by
      rw [← pow_add]
      congr 1
      omega
    rw [hsplit]
    ring
  · have hm : max a.exp b.exp = a.exp := Nat.max_eq_left h
    simp only [hm]
    have ha : a.exp - a.exp = 0 := Nat.sub_self a.exp
    rw [ha]
    push_cast
    rw [div_add_div _ _ (by positivity) (by positivity)]
    rw [div_eq_div_iff (by positivity) (by positivity)]
    have hsplit : (10 : ℚ) ^ a.exp = 10 ^ (a.exp - b.exp) * 10 ^ b.exp := by
      rw [← pow_add]
      congr 1
      omega
    rw [hsplit]
    ring

theorem pyAdd_toQ (a b : PyVal) : (pyAdd a b).toQ = a.toQ + b.toQ := by
  cases a with
  | int n =>
    cases b with
    | int m =>
      simp [pyAdd, PyVal.toQ, PyVal.toDec, Dec.toQ]
    | float d => simp [pyAdd, PyVal.toQ, PyVal.toDec, Dec.toQ_add]
  | float d =>
    cases b with
    | int m => simp [pyAdd, PyVal.toQ, PyVal.toDec, Dec.toQ_add]
    | float e => simp [pyAdd, PyVal.toQ, PyVal.toDec, Dec.toQ_add]

example : pyAdd (.float ⟨100, 0⟩) (.int 10) = .float ⟨110, 0⟩ := by decide
example : pyAdd (.int 3) (.int 4) = .int 7 := by decide
example : Dec.add ⟨15, 1⟩ ⟨25, 1⟩ = ⟨40, 1⟩ := by decide

/-! ## Errors

The Python exception kinds `main` can raise or propagate. -/

/-- Exception kinds raised by the script or propagated from its callees:
`xml.etree` parse errors, `ValueError` from `float`, `KeyError` from
dictionary indexing, `argparse.ArgumentTypeError` from the two list
parsers, `UFOLibError` from the registry read wrapper, `IndexError`
from list indexing. -/
inductive PyError where
  | parseError
  | valueError
  | keyError
  | argumentTypeError
  | ufoLibError
  | indexError
  deriving DecidableEq, Repr

/-! ## Characters and decimal digits -/

/-- The ASCII digit character for `d < 10`. -/
def digitChar (d : Nat) : Char := Char.ofNat (48 + d)

/-- ASCII decimal digit test. -/
def isDigitCh (c : Char) : Bool := 48 ≤ c.toNat && c.toNat ≤ 57

/-- Numeric value of an ASCII digit character. -/
def digitVal (c : Char) : Nat := c.toNat - 48

/-- The number denoted by a list of decimal digit characters, most
significant first. -/
def natOfDigits (ds : List Char) : Nat :=
  ds.foldl (fun a c => 10 * a + digitVal c) 0

/-- Fueled production of the decimal digits of a natural number (the fuel
keeps recursion structural so the kernel can evaluate it). -/
def natDigitsAux : Nat → Nat → List Char
  | 0, _ => []
  | fuel + 1, n =>
    if n < 10 then [digitChar n]
    else natDigitsAux fuel (n / 10) ++ [digitChar (n % 10)]

/-- Decimal digits of a natural number, most significant first. -/
def natDigits (n : Nat) : List Char := natDigitsAux (n + 1) n

/-- Decimal rendering of an integer: optional minus sign, then the digits
of the absolute value. -/
def intDigits (n : Int) : List Char :=
  (if n < 0 then ['-'] else []) ++ natDigits n.natAbs

theorem digitChar_toNat {d : Nat} (h : d < 10) : (digitChar d).toNat = 48 + d := by
  interval_cases d <;> decide

theorem isDigitCh_digitChar {d : Nat} (h : d < 10) : isDigitCh (digitChar d) = true := by
  interval_cases d <;> decide

theorem digitVal_digitChar {d : Nat} (h : d < 10) : digitVal (digitChar d) = d := by
  interval_cases d <;> decide

theorem natOfDigits_nil : natOfDigits [] = 0 := rfl

theorem natOfDigits_singleton (c : Char) : natOfDigits [c] = digitVal c := by
  simp [natOfDigits]

theorem natOfDigits_append_singleton (ds : List Char) (c : Char) :
    natOfDigits (ds ++ [c]) = 10 * natOfDigits ds + digitVal c := by
  simp [natOfDigits, List.foldl_append]

theorem natOfDigits_natDigitsAux :
    ∀ fuel n, n < fuel → natOfDigits (natDigitsAux fuel n) = n := by
  intro fuel
  induction fuel with
  | zero => intro n h; omega
  | succ f ih =>
    intro n h
    unfold natDigitsAux
    by_cases h10 : n < 10
    · simp [h10, natOfDigits_singleton, digitVal_digitChar h10]
    · have hdiv : n / 10 < n := Nat.div_lt_self (by omega) (by omega)
      have hf : n / 10 < f := by omega
      simp only [h10, if_false]
      rw [natOfDigits_append_singleton, ih _ hf,
        digitVal_digitChar (Nat.mod_lt n (by omega))]
      omega

theorem natOfDigits_natDigits (n : Nat) : natOfDigits (natDigits n) = n :=
  natOfDigits_natDigitsAux (n + 1) n (Nat.lt_succ_self n)

theorem natDigitsAux_all_digits :
    ∀ fuel n, ∀ c ∈ natDigitsAux fuel n, isDigitCh c = true := by
  intro fuel
  induction fuel with
  | zero => intro n c hc; simp [natDigitsAux] at hc
  | succ f ih =>
    intro n c hc
    unfold natDigitsAux at hc
    by_cases h10 : n < 10
    · simp [h10] at hc
      subst hc
      exact isDigitCh_digitChar h10
    · simp only [h10, if_false, List.mem_append, List.mem_singleton] at hc
      rcases hc with hc | hc
      · exact ih _ c hc
      · subst hc
        exact isDigitCh_digitChar (Nat.mod_lt n (by omega))

theorem natDigits_all_digits (n : Nat) : ∀ c ∈ natDigits n, isDigitCh c = true :=
  natDigitsAux_all_digits (n + 1) n

theorem natDigits_ne_nil (n : Nat) : natDigits n ≠ [] := by
  unfold natDigits natDigitsAux
  by_cases h10 : n < 10
  · simp [h10]
  · simp [h10]

example : natDigits 130 = ['1', '3', '0'] := by decide
example : natOfDigits ['2', '0', '0'] = 200 := by decide
example : intDigits (-45) = ['-', '4', '5'] := by decide

/-! ## Python string helpers used by the script -/

/-- Python whitespace test (the characters `str.split` and numeric
conversion strip), by ASCII code: space, tab, newline, carriage return,
vertical tab, form feed. -/
def isSpaceCh (c : Char) : Bool :=
  c.toNat = 32 || c.toNat = 9 || c.toNat = 10 || c.toNat = 13 ||
    c.toNat = 11 || c.toNat = 12

/-- `s.replace("px", " ")` on a character list: scan left to right,
replacing each non-overlapping occurrence of `px` by one space
(exactly Python's `str.replace` on this pattern). -/
def replacePxChars : List Char → List Char
  | [] => []
  | [c] => [c]
  | c1 :: c2 :: rest =>
    if c1 = 'p' ∧ c2 = 'x' then ' ' :: replacePxChars rest
    else c1 :: replacePxChars (c2 :: rest)

/-- `s.replace(",", " ")` on a character list. -/
def replaceCommaChars : List Char → List Char
  | [] => []
  | c :: rest =>
    if c = ',' then ' ' :: replaceCommaChars rest
    else c :: replaceCommaChars rest

/-- Python `str.split()` with no separator: split on runs of whitespace,
discarding empty fields.  `acc` holds the current word reversed. -/
def splitWordsAux : List Char → List Char → List (List Char)
  | [], acc => if acc.isEmpty then [] else [acc.reverse]
  | c :: rest, acc =>
    if isSpaceCh c then
      if acc.isEmpty then splitWordsAux rest []
      else acc.reverse :: splitWordsAux rest []
    else splitWordsAux rest (c :: acc)

/-- The script's `split`: `arg.replace(",", " ").split()`. -/
def split (arg : String) : List (List Char) :=
  splitWordsAux (replaceCommaChars arg.data) []

/-- Python `float(s)` on the forms the script feeds it, modelled exactly:
optional surrounding whitespace, optional sign, then digits with an
optional fractional part (`d+`, `d+.d*` or `.d+`).  Exponent and
`inf`/`nan` spellings never occur in this tool's inputs and are omitted.
Returns the exact decimal value, or `none` (Python: `ValueError`). -/
def pyFloatChars? (cs : List Char) : Option Dec :=
  let cs1 := cs.dropWhile isSpaceCh
  let sr : Int × List Char :=
    match cs1 with
    | [] => (1, [])
    | c :: r =>
      if c = '-' then (-1, r)
      else if c = '+' then (1, r)
      else (1, c :: r)
  let ds := sr.2.takeWhile isDigitCh
  let cs3 := sr.2.dropWhile isDigitCh
  let fr : List Char × List Char :=
    match cs3 with
    | [] => ([], [])
    | c :: r =>
      if c = '.' then (r.takeWhile isDigitCh, r.dropWhile isDigitCh)
      else ([], c :: r)
  let cs5 := fr.2.dropWhile isSpaceCh
  if cs5.isEmpty && (!ds.isEmpty || !fr.1.isEmpty) then
    some ⟨sr.1 * ((natOfDigits ds) * 10 ^ fr.1.length + natOfDigits fr.1),
      fr.1.length⟩
  else none

/-- `float(s)` on a string value. -/
def pyFloat? (s : String) : Option Dec := pyFloatChars? s.data

/-- The script's width/height extraction step:
`float(attr.replace("px", " "))`. -/
def parsePxFloat? (attr : String) : Option Dec :=
  pyFloatChars? (replacePxChars attr.data)

/-- `transform_list`: split the argument on commas/whitespace and convert
every token with `float`, raising `argparse.ArgumentTypeError` when any
token is invalid. -/
def transform_list (arg : String) : Except PyError (List PyVal) :=
  match (split arg).mapM pyFloatChars? with
  | some qs => .ok (qs.map PyVal.float)
  | none => .error .argumentTypeError

/-- Value of an ASCII hexadecimal digit character. -/
def hexVal? (c : Char) : Option Nat :=
  if 48 ≤ c.toNat && c.toNat ≤ 57 then some (c.toNat - 48)
  else if 97 ≤ c.toNat && c.toNat ≤ 102 then some (c.toNat - 87)
  else if 65 ≤ c.toNat && c.toNat ≤ 70 then some (c.toNat - 55)
  else none

/-- Python `int(s, 16)` on the plain hex-digit tokens the configuration
uses (sign/`0x` prefixes never occur there and are omitted). -/
def intHex16? (cs : List Char) : Option Nat :=
  match cs.mapM hexVal? with
  | some [] => none
  | some hs => some (hs.foldl (fun a h => 16 * a + h) 0)
  | none => none

/-- `unicode_hex_list`: split the argument and parse every token as a
hexadecimal code point, raising `argparse.ArgumentTypeError` when any
token is invalid. -/
def unicode_hex_list (arg : String) : Except PyError (List Nat) :=
  match (split arg).mapM intHex16? with
  | some us => .ok us
  | none => .error .argumentTypeError

deriving instance DecidableEq for Except

example : pyFloat? "100" = some ⟨100, 0⟩ := by decide
example : pyFloat? " -1.5 " = some ⟨-15, 1⟩ := by decide
example : pyFloat? "1 2" = none := by decide
example : pyFloat? "" = none := by decide
example : parsePxFloat? "100px" = some ⟨100, 0⟩ := by decide
example : parsePxFloat? "200px" = some ⟨200, 0⟩ := by decide
example : parsePxFloat? "abc" = none := by decide
example : transform_list "1, 0, 0, 1, 0, 0" =
    .ok [.float ⟨1, 0⟩, .float ⟨0, 0⟩, .float ⟨0, 0⟩, .float ⟨1, 0⟩,
      .float ⟨0, 0⟩, .float ⟨0, 0⟩] := by decide
example : unicode_hex_list "0D05 0D3E" = .ok [0xD05, 0xD3E] := by decide

/-! ## The glyph record and the GLIF text format

`svg2glif` builds a glyph record `SimpleNamespace(width=..., height=...,
unicodes=...)` and hands it, together with the outline drawing, to
ufoLib's `writeGlyphToString`.  The serializer and the matching standard
reader live outside this repository; they are modelled from the spec
below. -/

/-- The glyph record `svg2glif` builds:
`SimpleNamespace(width=width, height=height, unicodes=unicodes)`. -/
structure GlyphObject where
  width : PyVal
  height : PyVal
  unicodes : Option (List Nat)
  deriving DecidableEq, Repr

/-- Marked rendering of a Python numeric value: `i` + integer digits for
an `int`; `f` + mantissa + `/` + exponent for the exact decimal value of
a float (Python float `repr` round-trips exactly; the encoding here keeps
that exactness). -/
def pyValChars : PyVal → List Char
  | .int n => 'i' :: intDigits n
  | .float d => 'f' :: (intDigits d.num ++ '/' :: natDigits d.exp)

/-- `;`-terminated renderings of a list of numeric values. -/
def pyValsChars : List PyVal → List Char
  | [] => []
  | v :: rest => pyValChars v ++ ';' :: pyValsChars rest

/-- `;`-terminated renderings of a list of code points. -/
def natsChars : List Nat → List Char
  | [] => []
  | u :: rest => natDigits u ++ ';' :: natsChars rest

/-- Rendering of the optional Unicode list: `n` when absent, otherwise
`s`, the count, and the code points. -/
def unicodesChars : Option (List Nat) → List Char
  | none => ['n']
  | some us => 's' :: (natDigits us.length ++ ';' :: natsChars us)

/-- Modelled from the spec: ufoLib's `writeGlyphToString`, external to
this repository.  Serializes the glyph name, the glyph record (advance
width, height, Unicode code points), the format version, and the outline
produced by drawing the SVG path through the applied transform, into the
glyph-description text.  The fields are rendered in a fixed order with
`;` delimiters and a length-prefixed name. -/
def writeGlyphToString (name : String) (glyphObject : GlyphObject)
    (version : Nat) (transform : List PyVal) (outline : String) : String :=
  String.mk
    (natDigits version ++ ';' ::
      (pyValChars glyphObject.width ++ ';' ::
        (pyValChars glyphObject.height ++ ';' ::
          (unicodesChars glyphObject.unicodes ++ ';' ::
            (natDigits transform.length ++ ';' ::
              (pyValsChars transform ++
                (natDigits name.data.length ++ ';' ::
                  (name.data ++ outline.data))))))))

/-- `svg2glif` (source lines 43–65): build the glyph record from the
advance width, height and Unicode list, and serialize it with the outline
drawn from the SVG text under the given transform (the drawing itself —
`SVGPath.fromstring`, `SegmentToPointPen` — is external and carried
through as the outline text). -/
def svg2glif (svg : String) (name : String) (width : PyVal) (height : PyVal)
    (unicodes : Option (List Nat)) (transform : List PyVal) (version : Nat) :
    String :=
  writeGlyphToString name ⟨width, height, unicodes⟩ version transform svg

/-- A glyph description recovered by the standard reader. -/
structure ParsedGlif where
  name : String
  width : PyVal
  height : PyVal
  unicodes : Option (List Nat)
  version : Nat
  transform : List PyVal
  outline : String
  deriving DecidableEq, Repr

/-- Consume one expected character. -/
def expectCh (c : Char) : List Char → Option (List Char)
  | [] => none
  | d :: r => if d = c then some r else none

/-- Parse a nonempty run of decimal digits. -/
def parseNat? (cs : List Char) : Option (Nat × List Char) :=
  let ds := cs.takeWhile isDigitCh
  if ds.isEmpty then none
  else some (natOfDigits ds, cs.dropWhile isDigitCh)

/-- Parse an optionally signed run of decimal digits. -/
def parseInt? (cs : List Char) : Option (Int × List Char) :=
  match cs with
  | [] => none
  | c :: r =>
    if c = '-' then (parseNat? r).map (fun p => (-(p.1 : Int), p.2))
    else (parseNat? (c :: r)).map (fun p => ((p.1 : Int), p.2))

/-- Parse one marked numeric value. -/
def parsePyVal? (cs : List Char) : Option (PyVal × List Char) :=
  match cs with
  | [] => none
  | c :: r =>
    if c = 'i' then (parseInt? r).map (fun p => (PyVal.int p.1, p.2))
    else if c = 'f' then
      (parseInt? r).bind (fun p =>
        (expectCh '/' p.2).bind (fun r2 =>
          (parseNat? r2).map (fun q => (PyVal.float ⟨p.1, q.1⟩, q.2))))
    else none

/-- Parse `k` `;`-terminated numeric values. -/
def parsePyVals : Nat → List Char → Option (List PyVal × List Char)
  | 0, cs => some ([], cs)
  | k + 1, cs =>
    (parsePyVal? cs).bind (fun p =>
      (expectCh ';' p.2).bind (fun cs2 =>
        (parsePyVals k cs2).map (fun q => (p.1 :: q.1, q.2))))

/-- Parse `k` `;`-terminated code points. -/
def parseNats : Nat → List Char → Option (List Nat × List Char)
  | 0, cs => some ([], cs)
  | k + 1, cs =>
    (parseNat? cs).bind (fun p =>
      (expectCh ';' p.2).bind (fun cs2 =>
        (parseNats k cs2).map (fun q => (p.1 :: q.1, q.2))))

/-- Parse the optional Unicode list. -/
def parseUnicodes? (cs : List Char) : Option (Option (List Nat) × List Char) :=
  match cs with
  | [] => none
  | c :: r =>
    if c = 'n' then some (none, r)
    else if c = 's' then
      (parseNat? r).bind (fun p =>
        (expectCh ';' p.2).bind (fun r2 =>
          (parseNats p.1 r2).map (fun q => (some q.1, q.2))))
    else none

/-- Modelled from the spec: the standard reader of the glyph-description
text format, external to this repository.  Recovers the glyph name,
record fields, format version, transform and outline from the serialized
text. -/
def readGlyphFromString (s : String) : Option ParsedGlif :=
  (parseNat? s.data).bind (fun pv =>
    (expectCh ';' pv.2).bind (fun cs2 =>
      (parsePyVal? cs2).bind (fun pw =>
        (expectCh ';' pw.2).bind (fun cs4 =>
          (parsePyVal? cs4).bind (fun ph =>
            (expectCh ';' ph.2).bind (fun cs6 =>
              (parseUnicodes? cs6).bind (fun pu =>
                (expectCh ';' pu.2).bind (fun cs8 =>
                  (parseNat? cs8).bind (fun pt =>
                    (expectCh ';' pt.2).bind (fun cs10 =>
                      (parsePyVals pt.1 cs10).bind (fun ptr =>
                        (parseNat? ptr.2).bind (fun pn =>
                          (expectCh ';' pn.2).bind (fun cs13 =>
                            if pn.1 ≤ cs13.length then
                              some ⟨String.mk (cs13.take pn.1), pw.1, ph.1,
                                pu.1, pv.1, ptr.1,
                                String.mk (cs13.drop pn.1)⟩
                            else none)))))))))))))

example :
    readGlyphFromString
      (writeGlyphToString "uni0D05" ⟨.float ⟨130, 0⟩, .int 1000, some [0xD05]⟩
        2 [.float ⟨1, 0⟩, .float ⟨5, 0⟩] "M 0 0 L 1 1") =
    some ⟨"uni0D05", .float ⟨130, 0⟩, .int 1000, some [0xD05], 2,
      [.float ⟨1, 0⟩, .float ⟨5, 0⟩], "M 0 0 L 1 1"⟩ := by decide

/-! ## Round-trip lemmas for the glyph-description format -/

theorem natDigits_isEmpty (n : Nat) : (natDigits n).isEmpty = false := by
  cases h : natDigits n with
  | nil => exact absurd h (natDigits_ne_nil n)
  | cons d ds => rfl

theorem takeWhile_append_not {p : Char → Bool} {ds : List Char} {c : Char}
    {r : List Char} (hds : ∀ a ∈ ds, p a = true) (hc : p c = false) :
    (ds ++ c :: r).takeWhile p = ds := by
  induction ds with
  | nil => simp [List.takeWhile_cons, hc]
  | cons d tail ih =>
    have hd : p d = true := hds d (List.mem_cons_self d tail)
    simp only [List.cons_append, List.takeWhile_cons, hd, if_true]
    rw [ih (fun a ha => hds a (List.mem_cons_of_mem d ha))]

theorem dropWhile_append_not {p : Char → Bool} {ds : List Char} {c : Char}
    {r : List Char} (hds : ∀ a ∈ ds, p a = true) (hc : p c = false) :
    (ds ++ c :: r).dropWhile p = c :: r := by
  induction ds with
  | nil => simp [List.dropWhile_cons, hc]
  | cons d tail ih =>
    have hd : p d = true := hds d (List.mem_cons_self d tail)
    simp only [List.cons_append, List.dropWhile_cons, hd, if_true]
    exact ih (fun a ha => hds a (List.mem_cons_of_mem d ha))

theorem parseNat?_natDigits (n : Nat) {c : Char} (r : List Char)
    (hc : isDigitCh c = false) :
    parseNat? (natDigits n ++ c :: r) = some (n, c :: r) := by
  unfold parseNat?
  rw [takeWhile_append_not (natDigits_all_digits n) hc,
    dropWhile_append_not (natDigits_all_digits n) hc]
  simp [natDigits_isEmpty, natOfDigits_natDigits]

theorem expectCh_cons (c : Char) (r : List Char) : expectCh c (c :: r) = some r := by
  simp [expectCh]

theorem parseInt?_intDigits (n : Int) {c : Char} (r : List Char)
    (hc : isDigitCh c = false) :
    parseInt? (intDigits n ++ c :: r) = some (n, c :: r) := by
  unfold intDigits
  by_cases hn : n < 0
  · simp only [hn, if_true, List.cons_append, List.nil_append]
    simp only [parseInt?, eq_self_iff_true, if_true]
    rw [parseNat?_natDigits n.natAbs r hc]
    simp only [Option.map_some']
    have : -((n.natAbs : Nat) : Int) = n := by omega
    rw [this]
  · simp only [hn, if_false, List.nil_append]
    cases hnd : natDigits n.natAbs with
    | nil => exact absurd hnd (natDigits_ne_nil n.natAbs)
    | cons d ds =>
      have hd : isDigitCh d = true :=
        natDigits_all_digits n.natAbs d (by rw [hnd]; exact List.mem_cons_self d ds)
      have hdm : d ≠ '-' := by
        intro h
        rw [h] at hd
        exact absurd hd (by decide)
      simp only [List.cons_append]
      simp only [parseInt?, if_neg hdm]
      rw [← List.cons_append, ← hnd, parseNat?_natDigits n.natAbs r hc]
      simp only [Option.map_some']
      have : ((n.natAbs : Nat) : Int) = n := by omega
      rw [this]

theorem parsePyVal?_pyValChars (v : PyVal) {c : Char} (r : List Char)
    (hc : isDigitCh c = false) :
    parsePyVal? (pyValChars v ++ c :: r) = some (v, c :: r) := by
  cases v with
  | int n =>
    simp only [pyValChars, List.cons_append]
    simp only [parsePyVal?, eq_self_iff_true, if_true]
    rw [parseInt?_intDigits n r hc]
    rfl
  | float d =>
    simp only [pyValChars, List.cons_append, List.append_assoc, List.cons_append]
    simp only [parsePyVal?, if_neg (by decide : ¬('f' = 'i')), eq_self_iff_true, if_true]
    rw [parseInt?_intDigits d.num (natDigits d.exp ++ c :: r) (by decide)]
    simp only [Option.some_bind, expectCh_cons]
    rw [parseNat?_natDigits d.exp r hc]
    rfl

theorem parsePyVals_pyValsChars (vs : List PyVal) (rest : List Char) :
    parsePyVals vs.length (pyValsChars vs ++ rest) = some (vs, rest) := by
  induction vs with
  | nil => simp [parsePyVals, pyValsChars]
  | cons v tail ih =>
    simp only [pyValsChars, List.length_cons, List.append_assoc, List.cons_append]
    simp only [parsePyVals]
    rw [parsePyVal?_pyValChars v (pyValsChars tail ++ rest) (by decide)]
    simp only [Option.some_bind, expectCh_cons]
    rw [ih]
    rfl

theorem parseNats_natsChars (us : List Nat) (rest : List Char) :
    parseNats us.length (natsChars us ++ rest) = some (us, rest) := by
  induction us with
  | nil => simp [parseNats, natsChars]
  | cons u tail ih =>
    simp only [natsChars, List.length_cons, List.append_assoc, List.cons_append]
    simp only [parseNats]
    rw [parseNat?_natDigits u (natsChars tail ++ rest) (by decide)]
    simp only [Option.some_bind, expectCh_cons]
    rw [ih]
    rfl

theorem parseUnicodes?_unicodesChars (u : Option (List Nat)) (rest : List Char) :
    parseUnicodes? (unicodesChars u ++ rest) = some (u, rest) := by
  cases u with
  | none => simp [unicodesChars, parseUnicodes?]
  | some us =>
    simp only [unicodesChars, List.cons_append, List.append_assoc]
    simp only [parseUnicodes?, if_neg (by decide : ¬('s' = 'n')), eq_self_iff_true, if_true]
    rw [parseNat?_natDigits us.length (natsChars us ++ rest) (by decide)]
    simp only [Option.some_bind, expectCh_cons]
    rw [parseNats_natsChars us rest]
    rfl

theorem take_length_append {α : Type} (l₁ l₂ : List α) :
    (l₁ ++ l₂).take l₁.length = l₁ := by
  induction l₁ with
  | nil => simp
  | cons a t ih => simp [ih]

theorem drop_length_append {α : Type} (l₁ l₂ : List α) :
    (l₁ ++ l₂).drop l₁.length = l₂ := by
  induction l₁ with
  | nil => simp
  | cons a t ih => simp [ih]

theorem string_data_mk (l : List Char) : (String.mk l).data = l := rfl

theorem readGlyphFromString_writeGlyphToString (name : String) (g : GlyphObject)
    (version : Nat) (ts : List PyVal) (outline : String) :
    readGlyphFromString (writeGlyphToString name g version ts outline) =
      some ⟨name, g.width, g.height, g.unicodes, version, ts, outline⟩ := by
  unfold writeGlyphToString readGlyphFromString
  rw [string_data_mk]
  rw [parseNat?_natDigits version _ (by decide)]
  simp only [Option.some_bind, expectCh_cons]
  rw [parsePyVal?_pyValChars g.width _ (by decide)]
  simp only [Option.some_bind, expectCh_cons]
  rw [parsePyVal?_pyValChars g.height _ (by decide)]
  simp only [Option.some_bind, expectCh_cons]
  rw [parseUnicodes?_unicodesChars g.unicodes]
  simp only [Option.some_bind, expectCh_cons]
  rw [parseNat?_natDigits ts.length _ (by decide)]
  simp only [Option.some_bind, expectCh_cons]
  rw [parsePyVals_pyValsChars ts]
  simp only [Option.some_bind]
  rw [parseNat?_natDigits name.data.length _ (by decide)]
  simp only [Option.some_bind, expectCh_cons]
  have hle : name.data.length ≤ (name.data ++ outline.data).length := by
    rw [List.length_append]
    omega
  rw [if_pos hle, take_length_append, drop_length_append]

/-! ## Configuration, environment and state of `main`

`getConfig` loads the YAML mapping through the external `yaml` library;
the loaded configuration is taken here as structured input.  The UFO
reader/writer construction and `readInfo` (lines 113–118) are external
library calls; the font metadata they expose is part of the state. -/

/-- One per-glyph entry of the `svgs` configuration section, with the
bearing fields already through `int(...)` (the claims range over valid
configuration entries). -/
structure SvgCfg where
  glyph_name : String
  left : Int
  right : Int
  base : Option Int
  unicode : Option String
  deriving DecidableEq, Repr

/-- The `font` configuration section: `{ufo, transform, version}`. -/
structure FontCfg where
  ufo : String
  transform : String
  version : Nat
  deriving DecidableEq, Repr

/-- The loaded configuration mapping. -/
structure Config where
  font : FontCfg
  svgs : List (String × SvgCfg)
  deriving DecidableEq, Repr

/-- The parsed SVG document as `main` sees it: whether `etree.parse`
succeeded, and the root element's declared `width`/`height` attributes
(`None` models a missing attribute, a `KeyError` on access). -/
structure SvgDoc where
  wellFormed : Bool
  widthAttr : Option String
  heightAttr : Option String
  deriving DecidableEq, Repr

/-- The font-side state `main` reads: the glyph registry
`glyphs/contents.plist` (with whether it is readable at all), the
`public.glyphOrder` list of `lib.plist`, and the font info fields. -/
structure FontState where
  contentsPlist : List (String × String)
  contentsReadable : Bool
  glyphOrder : List String
  familyName : String
  unitsPerEm : Int
  deriving DecidableEq, Repr

/-- The parsed command line: the base name of the input SVG
(`os.path.splitext(os.path.basename(svg_file))[0]`) and the optional
output path. -/
structure CmdOptions where
  svgBaseName : String
  outfile : Option String
  deriving DecidableEq, Repr

/-- One file write performed by `main`. -/
inductive WriteEvent where
  | glifFile (path : String) (content : String)
  | contentsPlist (path : String) (registry : List (String × String))
  | libPlist (glyphOrder : List String)
  deriving DecidableEq, Repr

/-- The observable outcome of a crash-free run of `main`: whether the run
skipped, what it printed, every file write, and the final registry and
glyph-order contents. -/
structure RunOutcome where
  skipped : Bool
  messages : List String
  writes : List WriteEvent
  registry : List (String × String)
  glyphOrder : List String
  deriving DecidableEq, Repr

/-- Line 127: the skip warning (`%r` of a plain glyph source name). -/
def skipMessage (name : String) : String :=
  "\x1b[93mSkip: Configuration not found for svg : '" ++ name ++ "'\x1b[0m"

/-- Lines 171–172: the conversion report. -/
def convertMessage (familyName name outputFile : String) : String :=
  "\x1b[94m[" ++ familyName ++ "]\x1b[0m \x1b[92mConvert\x1b[0m " ++ name ++
    " -> " ++ outputFile ++ " \x1b[92m✔️\x1b[0m"

/-- Lines 178–179: the registration report. -/
def addMessage (familyName glyphName : String) : String :=
  "\x1b[94m[" ++ familyName ++ "]\x1b[0m \x1b[92mAdd\x1b[0m " ++ glyphName ++
    " -> " ++ glyphName ++ ".glif \x1b[92m✔️\x1b[0m"

/-- Python dict assignment `d[k] = v` on an insertion-ordered mapping:
overwrite in place when the key exists, append otherwise. -/
def dictSet (d : List (String × String)) (k v : String) :
    List (String × String) :=
  if (List.lookup k d).isSome then
    d.map (fun p => if p.1 = k then (k, v) else p)
  else d ++ [(k, v)]

/-- Python `lst[i] += v` on a list of numbers: in-place add at an index,
`IndexError` when out of range. -/
def listAddAt (l : List PyVal) (i : Nat) (v : PyVal) :
    Except PyError (List PyVal) :=
  if h : i < l.length then .ok (l.set i (pyAdd (l.get ⟨i, h⟩) v))
  else .error .indexError

/-- Line 133: `glyphWidth = width + int(left) + int(right)`. -/
def computeGlyphWidth (width : PyVal) (left right : Int) : PyVal :=
  pyAdd (pyAdd width (.int left)) (.int right)

/-- Lines 129–132: parse the optional `unicode` field. -/
def parseUnicodeField (svg_config : SvgCfg) :
    Except PyError (Option (List Nat)) :=
  match svg_config.unicode with
  | some u => (unicode_hex_list u).map some
  | none => .ok none

/-- Line 150–152: `base = int(svg_config['base'])` when present, else 0. -/
def baseOf (svg_config : SvgCfg) : Int :=
  match svg_config.base with
  | some b => b
  | none => 0

/-- Lines 164–167: the output path — explicit `OUTPUT` argument when
given, else `<ufo>/glyphs/<glyph_name>.glif`. -/
def outputFileOf (options : CmdOptions) (config : Config)
    (svg_config : SvgCfg) : String :=
  match options.outfile with
  | none => config.font.ufo ++ "/glyphs/" ++ svg_config.glyph_name ++ ".glif"
  | some f => f

/-- The embedding of `main` (lines 99–182).  Inputs: the parsed command
line, the loaded configuration, the parsed SVG document and its raw text,
and the font-side state.  The result is the Python outcome: an uncaught
exception, or a normal return together with the observable effects. -/
def runMain (options : CmdOptions) (config : Config) (doc : SvgDoc)
    (svgText : String) (st : FontState) : Except PyError RunOutcome :=
  -- line 107: svgObj = parseSvg(svg_file); etree.ParseError propagates
  if ¬ doc.wellFormed then .error .parseError
  else
    -- line 108: width = float(svgObj.attrib['width'].replace("px", " "))
    match doc.widthAttr with
    | none => .error .keyError
    | some wAttr =>
      match pyFloatChars? (replacePxChars wAttr.data) with
      | none => .error .valueError
      | some width =>
        -- line 109: height likewise
        match doc.heightAttr with
        | none => .error .keyError
        | some hAttr =>
          match pyFloatChars? (replacePxChars hAttr.data) with
          | none => .error .valueError
          | some height =>
            -- lines 110–121: name, font path, metadata, svg text
            let name := options.svgBaseName
            let ufo_font_path := config.font.ufo
            let familyName := st.familyName
            -- lines 124–128: per-glyph configuration lookup
            match List.lookup name config.svgs with
            | none =>
              .ok ⟨true, [skipMessage name], [], st.contentsPlist,
                st.glyphOrder⟩
            | some svg_config =>
              -- lines 129–132
              match parseUnicodeField svg_config with
              | .error e => .error e
              | .ok unicodeVal =>
                -- line 133
                let glyphWidth :=
                  computeGlyphWidth (.float width) svg_config.left
                    svg_config.right
                -- lines 135–140: read glyphs/contents.plist
                if ¬ st.contentsReadable then .error .ufoLibError
                else
                  -- lines 142–146
                  let glyph_name := svg_config.glyph_name
                  let existing_glyph :=
                    (List.lookup glyph_name st.contentsPlist).isSome
                  -- line 149
                  match transform_list config.font.transform with
                  | .error e => .error e
                  | .ok transform0 =>
                    -- lines 150–153
                    match listAddAt transform0 4 (.int svg_config.left) with
                    | .error e => .error e
                    | .ok transform1 =>
                      -- line 154
                      match listAddAt transform1 5
                          (pyAdd (.float height) (.int (baseOf svg_config))) with
                      | .error e => .error e
                      | .ok transform =>
                        -- lines 156–162
                        let glif := svg2glif svgText glyph_name glyphWidth
                          (.int st.unitsPerEm) unicodeVal transform
                          config.font.version
                        -- lines 164–167
                        let output_file := outputFileOf options config
                          svg_config
                        -- lines 168–182
                        if existing_glyph then
                          .ok ⟨false,
                            [convertMessage familyName name output_file],
                            [.glifFile output_file glif], st.contentsPlist,
                            st.glyphOrder⟩
                        else
                          .ok ⟨false,
                            [convertMessage familyName name output_file,
                              addMessage familyName glyph_name],
                            [.glifFile output_file glif,
                              .contentsPlist
                                (ufo_font_path ++ "/glyphs/contents.plist")
                                (dictSet st.contentsPlist glyph_name
                                  (glyph_name ++ ".glif")),
                              .libPlist (st.glyphOrder ++ [glyph_name])],
                            dictSet st.contentsPlist glyph_name
                              (glyph_name ++ ".glif"),
                            st.glyphOrder ++ [glyph_name]⟩

/-- `sys.exit(main())`: a normal return of `main` (which only ever returns
`None`) exits with status 0; an uncaught exception exits nonzero. -/
def exitCode (r : Except PyError RunOutcome) : Nat :=
  match r with
  | .ok _ => 0
  | .error _ => 1

/-- Decomposition of a crash-free run of `main`: either the per-glyph
configuration lookup missed and the run skipped without writing, or every
step succeeded and the run wrote the glyph file — plus, for a glyph name
not yet registered, the registry and glyph-order updates. -/
theorem runMain_ok_cases {options : CmdOptions} {config : Config} {doc : SvgDoc}
    {svgText : String} {st : FontState} {out : RunOutcome}
    (h : runMain options config doc svgText st = .ok out) :
    (List.lookup options.svgBaseName config.svgs = none ∧
      out = ⟨true, [skipMessage options.svgBaseName], [], st.contentsPlist,
        st.glyphOrder⟩) ∨
    (∃ svg_config width unicodeVal transform,
      List.lookup options.svgBaseName config.svgs = some svg_config ∧
      parseUnicodeField svg_config = Except.ok unicodeVal ∧
      st.contentsReadable = true ∧
      (if (List.lookup svg_config.glyph_name st.contentsPlist).isSome then
        out = ⟨false,
          [convertMessage st.familyName options.svgBaseName
            (outputFileOf options config svg_config)],
          [.glifFile (outputFileOf options config svg_config)
            (svg2glif svgText svg_config.glyph_name
              (computeGlyphWidth (.float width) svg_config.left
                svg_config.right)
              (.int st.unitsPerEm) unicodeVal transform config.font.version)],
          st.contentsPlist, st.glyphOrder⟩
      else
        out = ⟨false,
          [convertMessage st.familyName options.svgBaseName
            (outputFileOf options config svg_config),
            addMessage st.familyName svg_config.glyph_name],
          [.glifFile (outputFileOf options config svg_config)
            (svg2glif svgText svg_config.glyph_name
              (computeGlyphWidth (.float width) svg_config.left
                svg_config.right)
              (.int st.unitsPerEm) unicodeVal transform config.font.version),
            .contentsPlist (config.font.ufo ++ "/glyphs/contents.plist")
              (dictSet st.contentsPlist svg_config.glyph_name
                (svg_config.glyph_name ++ ".glif")),
            .libPlist (st.glyphOrder ++ [svg_config.glyph_name])],
          dictSet st.contentsPlist svg_config.glyph_name
            (svg_config.glyph_name ++ ".glif"),
          st.glyphOrder ++ [svg_config.glyph_name]⟩)) := by
  simp only [runMain] at h
  split at h
  · exact Except.noConfusion h
  · split at h
    · exact Except.noConfusion h
    · rename_i wA hwA
      split at h
      · exact Except.noConfusion h
      · rename_i width hwidth
        split at h
        · exact Except.noConfusion h
        · rename_i hA hhA
          split at h
          · exact Except.noConfusion h
          · rename_i height hheight
            split at h
            · rename_i hmiss
              left
              injection h with h
              exact ⟨hmiss, h.symm⟩
            · rename_i svg_config hsome
              split at h
              · exact Except.noConfusion h
              · rename_i unicodeVal huni
                split at h
                · exact Except.noConfusion h
                · rename_i hreadable
                  split at h
                  · exact Except.noConfusion h
                  · rename_i transform0 htr0
                    split at h
                    · exact Except.noConfusion h
                    · rename_i transform1 htr1
                      split at h
                      · exact Except.noConfusion h
                      · rename_i transform htr
                        split at h
                        · rename_i hexist
                          right
                          refine ⟨svg_config, width, unicodeVal, transform,
                            hsome, huni, not_not.mp hreadable, ?_⟩
                          rw [if_pos hexist]
                          exact (Except.ok.inj h).symm
                        · rename_i hnew
                          right
                          refine ⟨svg_config, width, unicodeVal, transform,
                            hsome, huni, not_not.mp hreadable, ?_⟩
                          rw [if_neg hnew]
                          exact (Except.ok.inj h).symm

/-! ## Helper lemmas for the claims -/

theorem toQ_int (n : Int) : (PyVal.int n).toQ = (n : ℚ) := by
  simp [PyVal.toQ, PyVal.toDec, Dec.toQ]

theorem toQ_float (d : Dec) : (PyVal.float d).toQ = d.toQ := rfl

/-- The content of the first write of a crash-free run, when that write
is the glyph-description file. -/
def writtenGlif? (r : Except PyError RunOutcome) : Option String :=
  match r with
  | .error _ => none
  | .ok o =>
    match o.writes with
    | WriteEvent.glifFile _ g :: _ => some g
    | _ => none

theorem lookup_append_self (d : List (String × String)) (k v : String)
    (hk : List.lookup k d = none) :
    List.lookup k (d ++ [(k, v)]) = some v := by
  induction d with
  | nil => simp [List.lookup]
  | cons p t ih =>
    obtain ⟨a, b⟩ := p
    rw [List.cons_append]
    simp only [List.lookup] at hk ⊢
    cases hab : (k == a) with
    | true => rw [hab] at hk; exact Option.noConfusion hk
    | false =>
      rw [hab] at hk
      exact ih hk

theorem dictSet_lookup_none (d : List (String × String)) (k v : String)
    (hk : List.lookup k d = none) :
    dictSet d k v = d ++ [(k, v)] := by
  rw [dictSet, hk]
  rfl

/-! ## The claims -/

/-- C1: the placement transform is computed by taking the six font-level
base transform coefficients and adjusting only the translation
components: the e-coefficient is incremented by the configured left
bearing, and the f-coefficient is incremented by the outline's declared
height plus the optional base offset (default 0).  In particular, for
base transform (1,0,0,1,0,0), left=5, outline height=50, base=0, the
resulting transform is (1,0,0,1,5,50) — checked both on the placement
computation of lines 148–154 and on the transform recovered from the
glyph file a full run writes. -/
theorem claim_C1_placement_transform :
    (∀ (a b c d e f : PyVal) (left base : Int) (height : Dec),
      ∃ e2 f2,
        (listAddAt [a, b, c, d, e, f] 4 (.int left)).bind
          (fun t1 => listAddAt t1 5 (pyAdd (.float height) (.int base))) =
          .ok [a, b, c, d, e2, f2] ∧
        e2.toQ = e.toQ + left ∧
        f2.toQ = f.toQ + (height.toQ + base)) ∧
    (∀ (gn : String) (l r : Int) (u : Option String),
      baseOf ⟨gn, l, r, none, u⟩ = 0) ∧
    ((writtenGlif? (runMain ⟨"g", none⟩
        ⟨⟨"F.ufo", "1, 0, 0, 1, 0, 0", 2⟩, [("g", ⟨"gn", 5, 7, some 0, none⟩)]⟩
        ⟨true, some "10px", some "50px"⟩ "M 0 0"
        ⟨[], true, [], "Fam", 1000⟩)).bind readGlyphFromString).map
      ParsedGlif.transform =
      some [.float ⟨1, 0⟩, .float ⟨0, 0⟩, .float ⟨0, 0⟩, .float ⟨1, 0⟩,
        .float ⟨5, 0⟩, .float ⟨50, 0⟩] := by
  refine ⟨?_, ?_, by decide⟩
  · intro a b c d e f left base height
    refine ⟨pyAdd e (.int left), pyAdd f (pyAdd (.float height) (.int base)),
      ?_, ?_, ?_⟩
    · rfl
    · rw [pyAdd_toQ, toQ_int]
    · rw [pyAdd_toQ, pyAdd_toQ, toQ_float, toQ_int]
  · intro gn l r u
    rfl

/-- C2: for every valid configuration entry, the glyph's advance width
equals the outline's declared width plus the configured left and right
bearings; in particular, for left=10, right=20, outline width=100, the
computed advance width is 130 — checked both on the computation of
line 133 and on the advance width recovered from the glyph file a full
run writes. -/
theorem claim_C2_advance_width :
    (∀ (w : Dec) (left right : Int),
      (computeGlyphWidth (.float w) left right).toQ = w.toQ + left + right) ∧
    computeGlyphWidth (.float ⟨100, 0⟩) 10 20 = .float ⟨130, 0⟩ ∧
    ((writtenGlif? (runMain ⟨"g", none⟩
        ⟨⟨"F.ufo", "1, 0, 0, 1, 0, 0", 2⟩,
          [("g", ⟨"gn", 10, 20, none, none⟩)]⟩
        ⟨true, some "100px", some "200px"⟩ "M 0 0"
        ⟨[], true, [], "Fam", 1000⟩)).bind readGlyphFromString).map
      ParsedGlif.width = some (.float ⟨130, 0⟩) := by
  refine ⟨?_, by decide, by decide⟩
  intro w left right
  unfold computeGlyphWidth
  rw [pyAdd_toQ, pyAdd_toQ, toQ_float, toQ_int, toQ_int]

/-- C8: for every glyph record (name, width, height, unicodes) and format
version, serializing it to the glyph-description text format and
re-parsing the resulting string with the standard reader yields the same
width, height, and Unicode set (serialize-then-parse round-trip). -/
theorem claim_C8_serialize_roundtrip (name : String) (g : GlyphObject)
    (version : Nat) (transform : List PyVal) (outline : String) :
    ∃ parsed,
      readGlyphFromString
        (writeGlyphToString name g version transform outline) = some parsed ∧
      parsed.width = g.width ∧ parsed.height = g.height ∧
      parsed.unicodes = g.unicodes ∧ parsed.version = version :=
  ⟨_, readGlyphFromString_writeGlyphToString name g version transform outline,
    rfl, rfl, rfl, rfl⟩

/-- C10: the advance width placed into the glyph record is a
floating-point value: the outline width is parsed with a float conversion
and the integer bearings are added to it without any cast back to
integer, so width="100px", left=10, right=20 stores the float 130.0,
which is not the integer 130 — checked on the width computation and on
the value recovered from the glyph file a full run writes. -/
theorem claim_C10_width_is_float :
    (∀ (w : Dec) (left right : Int),
      (computeGlyphWidth (.float w) left right).isFloat = true) ∧
    computeGlyphWidth (.float ⟨100, 0⟩) 10 20 = .float ⟨130, 0⟩ ∧
    PyVal.float ⟨130, 0⟩ ≠ PyVal.int 130 ∧
    ((writtenGlif? (runMain ⟨"g", none⟩
        ⟨⟨"F.ufo", "1, 0, 0, 1, 0, 0", 2⟩,
          [("g", ⟨"gn", 10, 20, none, none⟩)]⟩
        ⟨true, some "100px", some "200px"⟩ "M 0 0"
        ⟨[], true, [], "Fam", 1000⟩)).bind readGlyphFromString).map
      (fun p => p.width.isFloat) = some true := by
  exact ⟨fun w left right => rfl, by decide, by decide, by decide⟩

theorem svg2glif_eq (svg name : String) (width height : PyVal)
    (unicodes : Option (List Nat)) (transform : List PyVal) (version : Nat) :
    svg2glif svg name width height unicodes transform version =
      writeGlyphToString name ⟨width, height, unicodes⟩ version transform svg :=
  rfl

/-- C3: when the glyph name is not yet a key of the glyph registry, a
crash-free successful run adds the mapping
{glyph name → glyph name + ".glif"} to the registry and appends the same
glyph name to the glyph-order list, so that after success both structures
contain the name; neither structure ends up with the name without the
other. -/
theorem claim_C3_new_glyph_registration {options : CmdOptions}
    {config : Config} {doc : SvgDoc} {svgText : String} {st : FontState}
    {out : RunOutcome} {svg_config : SvgCfg}
    (h : runMain options config doc svgText st = .ok out)
    (hsome : List.lookup options.svgBaseName config.svgs = some svg_config)
    (hnew : List.lookup svg_config.glyph_name st.contentsPlist = none) :
    out.registry = st.contentsPlist ++
      [(svg_config.glyph_name, svg_config.glyph_name ++ ".glif")] ∧
    out.glyphOrder = st.glyphOrder ++ [svg_config.glyph_name] ∧
    List.lookup svg_config.glyph_name out.registry =
      some (svg_config.glyph_name ++ ".glif") ∧
    svg_config.glyph_name ∈ out.glyphOrder := by
  rcases runMain_ok_cases h with ⟨hm, _⟩ | ⟨sc, w, u, t, hs, _, _, hif⟩
  · rw [hm] at hsome
    exact Option.noConfusion hsome
  · rw [hsome] at hs
    injection hs with hs
    subst hs
    rw [if_neg (by simp [hnew])] at hif
    subst hif
    refine ⟨dictSet_lookup_none _ _ _ hnew, rfl, ?_, by simp⟩
    show List.lookup _ (dictSet _ _ _) = _
    rw [dictSet_lookup_none _ _ _ hnew]
    exact lookup_append_self _ _ _ hnew

/-- C4: when the target glyph name is already a key of the glyph registry
before the run, the run leaves the registry mapping unchanged and does
not append the name to the glyph-order list; the only file write is the
glyph-description file. -/
theorem claim_C4_existing_glyph_noop {options : CmdOptions} {config : Config}
    {doc : SvgDoc} {svgText : String} {st : FontState} {out : RunOutcome}
    {svg_config : SvgCfg}
    (h : runMain options config doc svgText st = .ok out)
    (hsome : List.lookup options.svgBaseName config.svgs = some svg_config)
    (hexist : (List.lookup svg_config.glyph_name st.contentsPlist).isSome
      = true) :
    out.registry = st.contentsPlist ∧
    out.glyphOrder = st.glyphOrder ∧
    ∃ path content, out.writes = [WriteEvent.glifFile path content] := by
  rcases runMain_ok_cases h with ⟨hm, _⟩ | ⟨sc, w, u, t, hs, _, _, hif⟩
  · rw [hm] at hsome
    exact Option.noConfusion hsome
  · rw [hsome] at hs
    injection hs with hs
    subst hs
    rw [if_pos hexist] at hif
    subst hif
    exact ⟨rfl, rfl, _, _, rfl⟩

/-- C5: for every valid outline/configuration pair in which the outline
file's base name has no entry in the per-glyph configuration section, the
(crash-free) run performs no file writes at all and reports a skip. -/
theorem claim_C5_miss_no_writes {options : CmdOptions} {config : Config}
    {doc : SvgDoc} {svgText : String} {st : FontState} {out : RunOutcome}
    (h : runMain options config doc svgText st = .ok out)
    (hmiss : List.lookup options.svgBaseName config.svgs = none) :
    out.writes = [] ∧ out.skipped = true ∧
    out.messages = [skipMessage options.svgBaseName] := by
  rcases runMain_ok_cases h with ⟨_, hout⟩ | ⟨sc, w, u, t, hs, _, _, _⟩
  · subst hout
    exact ⟨rfl, rfl, rfl⟩
  · rw [hmiss] at hs
    exact Option.noConfusion hs

/-- C6: a lookup miss for the outline's base name in the per-glyph
configuration section prints the warning and returns without error: the
run terminates as a successful run with exit status 0, not a failure. -/
theorem claim_C6_miss_is_success {options : CmdOptions} {config : Config}
    {doc : SvgDoc} {svgText : String} {st : FontState} {wA hA : String}
    {width height : Dec}
    (hwf : doc.wellFormed = true)
    (hwA : doc.widthAttr = some wA)
    (hw : pyFloatChars? (replacePxChars wA.data) = some width)
    (hhA : doc.heightAttr = some hA)
    (hh : pyFloatChars? (replacePxChars hA.data) = some height)
    (hmiss : List.lookup options.svgBaseName config.svgs = none) :
    runMain options config doc svgText st =
      .ok ⟨true, [skipMessage options.svgBaseName], [], st.contentsPlist,
        st.glyphOrder⟩ ∧
    exitCode (runMain options config doc svgText st) = 0 := by
  have hrun : runMain options config doc svgText st =
      .ok ⟨true, [skipMessage options.svgBaseName], [], st.contentsPlist,
        st.glyphOrder⟩ := by
    simp only [runMain, hwf, hwA, hw, hhA, hh, hmiss]
    simp
  rw [hrun]
  exact ⟨rfl, rfl⟩

/-- C7: the height stored in the emitted glyph record is the target
font's units-per-em value read from the font metadata, not the outline
document's own declared height: in every successful non-skipped run, the
glyph file written can be re-read and its height equals the state's
units-per-em. -/
theorem claim_C7_height_is_upem {options : CmdOptions} {config : Config}
    {doc : SvgDoc} {svgText : String} {st : FontState} {out : RunOutcome}
    (h : runMain options config doc svgText st = .ok out)
    (hns : out.skipped = false) :
    ∃ path glif rest parsed,
      out.writes = WriteEvent.glifFile path glif :: rest ∧
      readGlyphFromString glif = some parsed ∧
      parsed.height = PyVal.int st.unitsPerEm := by
  rcases runMain_ok_cases h with ⟨_, hout⟩ | ⟨sc, w, u, t, _, _, _, hif⟩
  · rw [hout] at hns
    simp at hns
  · by_cases hex : (List.lookup sc.glyph_name st.contentsPlist).isSome = true
    · rw [if_pos hex] at hif
      subst hif
      have hr := readGlyphFromString_writeGlyphToString sc.glyph_name
        ⟨computeGlyphWidth (.float w) sc.left sc.right, .int st.unitsPerEm, u⟩
        config.font.version t svgText
      exact ⟨outputFileOf options config sc, _, [], _, rfl, hr, rfl⟩
    · rw [if_neg hex] at hif
      subst hif
      have hr := readGlyphFromString_writeGlyphToString sc.glyph_name
        ⟨computeGlyphWidth (.float w) sc.left sc.right, .int st.unitsPerEm, u⟩
        config.font.version t svgText
      exact ⟨outputFileOf options config sc, _,
        [.contentsPlist (config.font.ufo ++ "/glyphs/contents.plist")
          (dictSet st.contentsPlist sc.glyph_name (sc.glyph_name ++ ".glif")),
          .libPlist (st.glyphOrder ++ [sc.glyph_name])], _, rfl, hr, rfl⟩

theorem isDigitCh_not_space {c : Char} (h : isDigitCh c = true) :
    isSpaceCh c = false := by
  simp only [isDigitCh, Bool.and_eq_true, decide_eq_true_eq] at h
  simp only [isSpaceCh, Bool.or_eq_false_iff, decide_eq_false_iff_not]
  omega

theorem isDigitCh_ne {c c0 : Char} (h : isDigitCh c = true)
    (h0 : isDigitCh c0 = false) : c ≠ c0 := by
  intro he
  rw [he] at h
  rw [h] at h0
  exact Bool.noConfusion h0

theorem replacePxChars_digits (ds rest : List Char)
    (hds : ∀ c ∈ ds, isDigitCh c = true) :
    replacePxChars (ds ++ rest) = ds ++ replacePxChars rest := by
  induction ds with
  | nil => rfl
  | cons d tail ih =>
    have hd : isDigitCh d = true := hds d (List.mem_cons_self d tail)
    have hdp : d ≠ 'p' := isDigitCh_ne hd (by decide)
    have htail : ∀ c ∈ tail, isDigitCh c = true :=
      fun c hc => hds c (List.mem_cons_of_mem d hc)
    cases tail with
    | nil =>
      cases rest with
      | nil => rfl
      | cons r0 rr =>
        show replacePxChars (d :: r0 :: rr) = d :: replacePxChars (r0 :: rr)
        rw [replacePxChars]
        rw [if_neg (fun hpx => hdp hpx.1)]
    | cons t0 tt =>
      show replacePxChars (d :: t0 :: (tt ++ rest)) =
        d :: ((t0 :: tt) ++ replacePxChars rest)
      rw [replacePxChars]
      rw [if_neg (fun hpx => hdp hpx.1)]
      rw [← List.cons_append, ih htail]

theorem pyFloatChars?_digits_space (ds : List Char) (hne : ds ≠ [])
    (hds : ∀ c ∈ ds, isDigitCh c = true) :
    pyFloatChars? (ds ++ [' ']) = some ⟨(natOfDigits ds : Int), 0⟩ := by
  cases ds with
  | nil => exact absurd rfl hne
  | cons d dt =>
    have hd : isDigitCh d = true := hds d (List.mem_cons_self d dt)
    have hdsp : isSpaceCh d = false := isDigitCh_not_space hd
    have hdm : d ≠ '-' := isDigitCh_ne hd (by decide)
    have hdp : d ≠ '+' := isDigitCh_ne hd (by decide)
    have h1 : List.dropWhile isSpaceCh (d :: (dt ++ [' '])) =
        d :: (dt ++ [' ']) := by
      rw [List.dropWhile_cons, hdsp]
      simp
    have h2 : List.takeWhile isDigitCh (d :: (dt ++ [' '])) = d :: dt := by
      rw [← List.cons_append]
      exact takeWhile_append_not hds (by decide)
    have h3 : List.dropWhile isDigitCh (d :: (dt ++ [' '])) = [' '] := by
      rw [← List.cons_append]
      exact dropWhile_append_not hds (by decide)
    simp only [pyFloatChars?, List.cons_append, h1, if_neg hdm, if_neg hdp,
      h2, h3, if_neg (by decide : ¬(' ' = '.'))]
    simp [natOfDigits_nil]
    decide

/-- C9: the outline reader extracts the declared width and height
attributes as numbers after stripping a "px" unit suffix; if the document
is not well-formed XML the run fails with a parse error, and if width or
height is non-numeric it fails with a value error; both are fatal and
propagated to the invoker (nonzero exit). -/
theorem claim_C9_outline_reader :
    (∀ (options : CmdOptions) (config : Config) (doc : SvgDoc)
        (svgText : String) (st : FontState),
      doc.wellFormed = false →
        runMain options config doc svgText st = .error .parseError ∧
        exitCode (runMain options config doc svgText st) = 1) ∧
    (∀ (options : CmdOptions) (config : Config) (doc : SvgDoc)
        (svgText : String) (st : FontState) (wA : String),
      doc.wellFormed = true → doc.widthAttr = some wA →
      pyFloatChars? (replacePxChars wA.data) = none →
        runMain options config doc svgText st = .error .valueError ∧
        exitCode (runMain options config doc svgText st) = 1) ∧
    (∀ (options : CmdOptions) (config : Config) (doc : SvgDoc)
        (svgText : String) (st : FontState) (wA hA : String) (width : Dec),
      doc.wellFormed = true → doc.widthAttr = some wA →
      pyFloatChars? (replacePxChars wA.data) = some width →
      doc.heightAttr = some hA →
      pyFloatChars? (replacePxChars hA.data) = none →
        runMain options config doc svgText st = .error .valueError ∧
        exitCode (runMain options config doc svgText st) = 1) ∧
    (∀ ds : List Char, ds ≠ [] → (∀ c ∈ ds, isDigitCh c = true) →
      pyFloatChars? (replacePxChars (ds ++ ['p', 'x'])) =
        some ⟨(natOfDigits ds : Int), 0⟩) := by
  refine ⟨?_, ?_, ?_, ?_⟩
  · intro options config doc svgText st hwf
    have hrun : runMain options config doc svgText st = .error .parseError := by
      simp only [runMain, hwf]
      simp
    rw [hrun]
    exact ⟨rfl, rfl⟩
  · intro options config doc svgText st wA hwf hwA hparse
    have hrun : runMain options config doc svgText st = .error .valueError := by
      simp only [runMain, hwf, hwA, hparse]
      simp
    rw [hrun]
    exact ⟨rfl, rfl⟩
  · intro options config doc svgText st wA hA width hwf hwA hw hhA hparse
    have hrun : runMain options config doc svgText st = .error .valueError := by
      simp only [runMain, hwf, hwA, hw, hhA, hparse]
      simp
    rw [hrun]
    exact ⟨rfl, rfl⟩
  · intro ds hne hds
    rw [replacePxChars_digits ds ['p', 'x'] hds,
      (by decide : replacePxChars ['p', 'x'] = [' '])]
    exact pyFloatChars?_digits_space ds hne hds

theorem claim_C9_outline_reader_witness :
    (runMain ⟨"g", none⟩ ⟨⟨"F.ufo", "1", 2⟩, []⟩
        ⟨false, some "100px", some "1px"⟩ "M" ⟨[], true, [], "F", 1000⟩ =
        .error .parseError ∧
      exitCode (runMain ⟨"g", none⟩ ⟨⟨"F.ufo", "1", 2⟩, []⟩
        ⟨false, some "100px", some "1px"⟩ "M" ⟨[], true, [], "F", 1000⟩) = 1) ∧
    (runMain ⟨"g", none⟩ ⟨⟨"F.ufo", "1", 2⟩, []⟩
        ⟨true, some "abc", some "1px"⟩ "M" ⟨[], true, [], "F", 1000⟩ =
        .error .valueError ∧
      exitCode (runMain ⟨"g", none⟩ ⟨⟨"F.ufo", "1", 2⟩, []⟩
        ⟨true, some "abc", some "1px"⟩ "M" ⟨[], true, [], "F", 1000⟩) = 1) ∧
    (runMain ⟨"g", none⟩ ⟨⟨"F.ufo", "1", 2⟩, []⟩
        ⟨true, some "100px", some "abc"⟩ "M" ⟨[], true, [], "F", 1000⟩ =
        .error .valueError ∧
      exitCode (runMain ⟨"g", none⟩ ⟨⟨"F.ufo", "1", 2⟩, []⟩
        ⟨true, some "100px", some "abc"⟩ "M" ⟨[], true, [], "F", 1000⟩) = 1) ∧
    pyFloatChars? (replacePxChars (['1', '0', '0'] ++ ['p', 'x'])) =
      some ⟨(natOfDigits ['1', '0', '0'] : Int), 0⟩ :=
  ⟨claim_C9_outline_reader.1 _ _ _ _ _ rfl,
    claim_C9_outline_reader.2.1 _ _ _ _ _ "abc" rfl rfl (by decide),
    claim_C9_outline_reader.2.2.1 _ _ _ _ _ "100px" "abc" ⟨100, 0⟩ rfl rfl
      (by decide) rfl (by decide),
    claim_C9_outline_reader.2.2.2 ['1', '0', '0'] (by decide) (by decide)⟩

/-! ## Concrete witness runs -/

/-- Witness configuration entry: glyph `gn`, bearings 5/7, base 0. -/
def wEntry : SvgCfg := ⟨"gn", 5, 7, some 0, some "0D05"⟩

/-- Witness configuration: identity base transform, format version 2. -/
def wCfg : Config := ⟨⟨"F.ufo", "1, 0, 0, 1, 0, 0", 2⟩, [("g", wEntry)]⟩

/-- Witness outline document: 100×200 px. -/
def wDoc : SvgDoc := ⟨true, some "100px", some "200px"⟩

/-- Witness font state where `gn` is not yet registered. -/
def wStNew : FontState := ⟨[("old", "old.glif")], true, ["old"], "Fam", 1000⟩

/-- Witness font state where `gn` is already registered. -/
def wStOld : FontState :=
  ⟨[("old", "old.glif"), ("gn", "gn.glif")], true, ["old", "gn"], "Fam", 1000⟩

/-- Outcome of the witness run against `wStNew`. -/
def wOutNew : RunOutcome :=
  match runMain ⟨"g", none⟩ wCfg wDoc "M 0 0" wStNew with
  | .ok o => o
  | .error _ => ⟨true, [], [], [], []⟩

/-- Outcome of the witness run against `wStOld`. -/
def wOutOld : RunOutcome :=
  match runMain ⟨"g", none⟩ wCfg wDoc "M 0 0" wStOld with
  | .ok o => o
  | .error _ => ⟨true, [], [], [], []⟩

/-- Outcome of the witness run whose base name has no configuration. -/
def wOutMiss : RunOutcome :=
  match runMain ⟨"zz", none⟩ wCfg wDoc "M 0 0" wStNew with
  | .ok o => o
  | .error _ => ⟨false, [], [], [], []⟩

theorem claim_C3_new_glyph_registration_witness :
    wOutNew.registry = wStNew.contentsPlist ++
      [(wEntry.glyph_name, wEntry.glyph_name ++ ".glif")] ∧
    wOutNew.glyphOrder = wStNew.glyphOrder ++ [wEntry.glyph_name] ∧
    List.lookup wEntry.glyph_name wOutNew.registry =
      some (wEntry.glyph_name ++ ".glif") ∧
    wEntry.glyph_name ∈ wOutNew.glyphOrder :=
  @claim_C3_new_glyph_registration ⟨"g", none⟩ wCfg wDoc "M 0 0" wStNew
    wOutNew wEntry (by decide) (by decide) (by decide)

theorem claim_C4_existing_glyph_noop_witness :
    wOutOld.registry = wStOld.contentsPlist ∧
    wOutOld.glyphOrder = wStOld.glyphOrder ∧
    ∃ path content, wOutOld.writes = [WriteEvent.glifFile path content] :=
  @claim_C4_existing_glyph_noop ⟨"g", none⟩ wCfg wDoc "M 0 0" wStOld
    wOutOld wEntry (by decide) (by decide) (by decide)

theorem claim_C5_miss_no_writes_witness :
    wOutMiss.writes = [] ∧ wOutMiss.skipped = true ∧
    wOutMiss.messages = [skipMessage "zz"] :=
  @claim_C5_miss_no_writes ⟨"zz", none⟩ wCfg wDoc "M 0 0" wStNew wOutMiss
    (by decide) (by decide)

theorem claim_C6_miss_is_success_witness :
    runMain ⟨"zz", none⟩ wCfg wDoc "M 0 0" wStNew =
      .ok ⟨true, [skipMessage "zz"], [], wStNew.contentsPlist,
        wStNew.glyphOrder⟩ ∧
    exitCode (runMain ⟨"zz", none⟩ wCfg wDoc "M 0 0" wStNew) = 0 :=
  @claim_C6_miss_is_success ⟨"zz", none⟩ wCfg wDoc "M 0 0" wStNew
    "100px" "200px" ⟨100, 0⟩ ⟨200, 0⟩ rfl rfl (by decide) rfl (by decide)
    (by decide)

theorem claim_C7_height_is_upem_witness :
    ∃ path glif rest parsed,
      wOutNew.writes = WriteEvent.glifFile path glif :: rest ∧
      readGlyphFromString glif = some parsed ∧
      parsed.height = PyVal.int wStNew.unitsPerEm :=
  @claim_C7_height_is_upem ⟨"g", none⟩ wCfg wDoc "M 0 0" wStNew wOutNew
    (by decide) (by decide)
